import Mathlib

/- Verification development for the moving-obstacle model
   (src/server/auvsi_suas/models/moving_obstacle.py).

   Conventions of the embedding:
   * Machine floats are modelled as exact rationals (ℚ).
   * Timestamps are rationals measured in seconds relative to the fixed
     reference epoch built at moving_obstacle.py lines 187-194.
   * Python functions that can raise or return None are modelled with Option.
   * The geodesic distance function (auvsi_suas.models.distance), the unit
     conversion (auvsi_suas.models.units), the scipy spline evaluator and the
     telemetry interpolator (UasTelemetry.interpolate) live outside src/ and
     are modelled from the spec, either as explicit parameters or as
     spec-faithful definitions, as documented on each item. -/

namespace MovingObstacleSpec

/-- GPS position: latitude and longitude in degrees. -/
structure GpsPosition where
  latitude : ℚ
  longitude : ℚ
  deriving DecidableEq

/-- Aerial position: a GPS position plus MSL altitude in feet. -/
structure AerialPosition where
  gps_position : GpsPosition
  altitude_msl : ℚ
  deriving DecidableEq

/-- A waypoint of an obstacle circuit; the list order is the order column. -/
structure Waypoint where
  position : AerialPosition
  deriving DecidableEq

/-- The (latitude, longitude, altitude_msl) triple of a waypoint, as read at
moving_obstacle.py lines 125-127 and 174-176. -/
def Waypoint.pos3 (w : Waypoint) : ℚ × ℚ × ℚ :=
  (w.position.gps_position.latitude, w.position.gps_position.longitude,
   w.position.altitude_msl)

/-- Modelled from the spec: the 3-D geodesic distance function
auvsi_suas.models.distance.distance_to is not under src/; spec section 4.1
declares the exact formula an implementation freedom, so the development is
parametric in the distance function. -/
abbrev Dist : Type := ℚ × ℚ × ℚ → ℚ × ℚ × ℚ → ℚ

/-- Spec section 4.1: the distance is zero exactly when the points coincide. -/
def DistZeroIffEq (d : Dist) : Prop := ∀ p q, d p q = 0 ↔ p = q

/-- Spec section 4.1: the distance is non-negative (it is a distance). -/
def DistNonneg (d : Dist) : Prop := ∀ p q, 0 ≤ d p q

/-- Waypoint.distance_to (auvsi_suas.models.waypoint, not under src/):
geodesic distance between the positions of two waypoints. -/
def distance_to (d : Dist) (a b : Waypoint) : ℚ := d a.pos3 b.pos3

/-- The MovingObstacle model fields (moving_obstacle.py lines 27-29), with the
waypoint relation materialised as the list already sorted by order. -/
structure MovingObstacle where
  waypoints : List Waypoint
  speed_avg : ℚ
  sphere_radius : ℚ

/-- Modelled from the spec: units.knots_to_feet_per_second
(auvsi_suas.models.units, not under src/) converts knots to feet per second by
the fixed positive factor 1852 m/h over 0.3048 m/ft over 3600 s/h. -/
def knots_to_feet_per_second (s : ℚ) : ℚ := s * (11575 / 6858)

/-- Default waypoint used to total out-of-range list reads; every read is
guarded by the same bound checks the Python code performs. -/
def dw0 : Waypoint := ⟨⟨⟨0, 0⟩, 0⟩⟩

/-- get_waypoint_travel_time (moving_obstacle.py lines 36-65): validation
guards returning the None sentinel, then distance over converted speed. -/
def get_waypoint_travel_time (d : Dist) (o : MovingObstacle)
    (waypoints : List Waypoint) (id_tm1 id_t : Option ℤ) : Option ℚ :=
  if waypoints = [] then none
  else if waypoints.length < 2 then none
  else match id_tm1 with
    | none => none
    | some i =>
      if i < 0 ∨ (waypoints.length : ℤ) ≤ i then none
      else match id_t with
        | none => none
        | some j =>
          if j < 0 ∨ (waypoints.length : ℤ) ≤ j then none
          else if o.speed_avg ≤ 0 then none
          else some (distance_to d (waypoints.getD i.toNat dw0)
                       (waypoints.getD j.toNat dw0) /
                     knots_to_feet_per_second o.speed_avg)

/-- Helper for the loop at moving_obstacle.py lines 78-84: evaluates the body
at each index; any None body value makes the whole computation fail, modelling
the TypeError numpy raises when a None is stored into a float array. -/
def optMap (f : ℕ → Option ℚ) : List ℕ → Option (List ℚ)
  | [] => some []
  | i :: is =>
    match f i, optMap f is with
    | some v, some vs => some (v :: vs)
    | _, _ => none

/-- get_inter_waypoint_travel_times (moving_obstacle.py lines 67-86): entry 0
is the array's initial zero, entries 1..N come from get_waypoint_travel_time
at indices ((i-1) mod N, i mod N). -/
def get_inter_waypoint_travel_times (d : Dist) (o : MovingObstacle)
    (waypoints : List Waypoint) : Option (List ℚ) :=
  (optMap
      (fun i =>
        get_waypoint_travel_time d o waypoints
          (some (((i : ℤ) - 1) % (waypoints.length : ℤ)))
          (some ((i : ℤ) % (waypoints.length : ℤ))))
      ((List.range waypoints.length).map (· + 1))).map (fun ts => 0 :: ts)

/-- Helper for the running-total loop at moving_obstacle.py lines 97-102. -/
def cumsumAux : ℚ → List ℚ → List ℚ
  | _, [] => []
  | acc, x :: xs => (acc + x) :: cumsumAux (acc + x) xs

/-- get_waypoint_times (moving_obstacle.py lines 88-104): cumulative sums of
the inter-waypoint travel times. -/
def get_waypoint_times (waypoint_travel_times : List ℚ) : List ℚ :=
  cumsumAux 0 waypoint_travel_times

/-- The tck value splrep returns, modelled as the data handed to the fit: the
x knots (cumulative times), the y data of the dimension, and the degree k.
scipy's splrep/splev behaviour itself is kept abstract via parameters. -/
structure Tck where
  x : List ℚ
  y : List ℚ
  k : ℕ
  deriving DecidableEq

/-- Default tck used to total out-of-range list reads. -/
def tck0 : Tck := ⟨[], [], 0⟩

/-- The per-dimension y data built at moving_obstacle.py lines 120-127: a
zero-initialised array of length N+1 whose rows 0..N-1 are filled with the
waypoint coordinates and whose row N keeps its initial zero. -/
def spline_ys (waypoints : List Waypoint) (f : Waypoint → ℚ) : List ℚ :=
  (List.range (waypoints.length + 1)).map
    (fun k => if k < waypoints.length then f (waypoints.getD k dw0) else 0)

/-- get_spline_curve (moving_obstacle.py lines 106-142): travel times,
cumulative times, total time as the last cumulative entry, degree 3 when at
least three waypoints else 2, and one tck per dimension in the order
latitude, longitude, altitude. -/
def get_spline_curve (d : Dist) (o : MovingObstacle)
    (waypoints : List Waypoint) : Option (ℚ × List Tck) :=
  match get_inter_waypoint_travel_times d o waypoints with
  | none => none
  | some waypoint_travel_times =>
    let pos_times := get_waypoint_times waypoint_travel_times
    let total_travel_time := pos_times.getD (pos_times.length - 1) 0
    let spline_k : ℕ := if 3 ≤ waypoints.length then 3 else 2
    some (total_travel_time,
      [⟨pos_times, spline_ys waypoints
          (fun w => w.position.gps_position.latitude), spline_k⟩,
       ⟨pos_times, spline_ys waypoints
          (fun w => w.position.gps_position.longitude), spline_k⟩,
       ⟨pos_times, spline_ys waypoints
          (fun w => w.position.altitude_msl), spline_k⟩])

/-- Helper for the consecutive-duplicate filter at moving_obstacle.py lines
162-165: prev is always the previous element of the original list, whether or
not it was kept. -/
def dedupAux (d : Dist) : Waypoint → List Waypoint → List Waypoint
  | _, [] => []
  | prev, w :: ws =>
    (if distance_to d w prev ≠ 0 then [w] else []) ++ dedupAux d w ws

/-- The waypoint deduplication pass inlined at moving_obstacle.py lines
160-165: keep index 0 always, keep index i > 0 only if the distance from
waypoint i to waypoint i-1 is nonzero. -/
def dedup_waypoints (d : Dist) : List Waypoint → List Waypoint
  | [] => []
  | w :: ws => w :: dedupAux d w ws

/-- The in-memory state of one MovingObstacle instance: the model fields plus
the two lazily attached caches (moving_obstacle.py lines 157-166, 179-183). -/
structure ObstacleState where
  obst : MovingObstacle
  preprocessed_waypoints : Option (List Waypoint)
  preprocessed_spline_curve : Option (ℚ × List Tck)

/-- A freshly loaded obstacle instance: both caches unpopulated. -/
def mkState (o : MovingObstacle) : ObstacleState := ⟨o, none, none⟩

/-- The fixed reference epoch (moving_obstacle.py lines 187-194): now() with
every varying field replaced, hence the constant 1970-01-01T00:00:00 of the
run's timezone; timestamps in this development are seconds relative to it. -/
def epoch_time : ℚ := 0

/-- np.mod for a float pair: x - T * floor (x / T). -/
def qmod (x T : ℚ) : ℚ := x - T * (⌊x / T⌋ : ℤ)

/-- get_position (moving_obstacle.py lines 144-201), with the scipy spline
evaluator splev passed in as the parameter sev. Returns the position triple
and the instance state after the call; none models an escaping exception. -/
def get_position (d : Dist) (sev : Tck → ℚ → ℚ) (s : ObstacleState)
    (cur_time : ℚ) : Option ((ℚ × ℚ × ℚ) × ObstacleState) :=
  let waypoints :=
    match s.preprocessed_waypoints with
    | some w => w
    | none => dedup_waypoints d s.obst.waypoints
  let s1 : ObstacleState := ⟨s.obst, some waypoints, s.preprocessed_spline_curve⟩
  let num_waypoints := waypoints.length
  if num_waypoints = 0 then some ((0, 0, 0), s1)
  else if num_waypoints = 1 ∨ s.obst.speed_avg ≤ 0 then
    some ((waypoints.getD 0 dw0).pos3, s1)
  else
    match
      (match s.preprocessed_spline_curve with
       | some sc => some sc
       | none => get_spline_curve d s.obst waypoints) with
    | none => none
    | some sc =>
      let s2 : ObstacleState := ⟨s.obst, some waypoints, some sc⟩
      let cur_time_sec := cur_time - epoch_time
      let cur_path_time := qmod cur_time_sec sc.1
      some ((sev (sc.2.getD 0 tck0) cur_path_time,
             sev (sc.2.getD 1 tck0) cur_path_time,
             sev (sc.2.getD 2 tck0) cur_path_time), s2)

/-- The position triple get_position computes, as a pure function of the
obstacle fields and the timestamp (caches stripped). -/
def get_position_result (d : Dist) (sev : Tck → ℚ → ℚ) (o : MovingObstacle)
    (cur_time : ℚ) : ℚ × ℚ × ℚ :=
  let waypoints := dedup_waypoints d o.waypoints
  if waypoints.length = 0 then (0, 0, 0)
  else if waypoints.length = 1 ∨ o.speed_avg ≤ 0 then
    (waypoints.getD 0 dw0).pos3
  else
    match get_spline_curve d o waypoints with
    | none => (0, 0, 0)
    | some sc =>
      let cur_path_time := qmod (cur_time - epoch_time) sc.1
      (sev (sc.2.getD 0 tck0) cur_path_time,
       sev (sc.2.getD 1 tck0) cur_path_time,
       sev (sc.2.getD 2 tck0) cur_path_time)

/-- The total circuit period used by get_position's modulo reduction. -/
def circuit_total_period (d : Dist) (o : MovingObstacle) : ℚ :=
  match get_spline_curve d o (dedup_waypoints d o.waypoints) with
  | some sc => sc.1
  | none => 0

/-- contains_pos (moving_obstacle.py lines 203-217): inclusive sphere test. -/
def contains_pos (d : Dist) (o : MovingObstacle)
    (obst_lat obst_lon obst_alt : ℚ) (aerial_pos : AerialPosition) : Bool :=
  decide (d (obst_lat, obst_lon, obst_alt)
      (aerial_pos.gps_position.latitude, aerial_pos.gps_position.longitude,
       aerial_pos.altitude_msl) ≤ o.sphere_radius)

/-- One UAS telemetry log entry, as read by evaluate_collision_with_uas. -/
structure UasTelemetry where
  timestamp : ℚ
  uas_position : AerialPosition

/-- The loop body of evaluate_collision_with_uas (moving_obstacle.py lines
229-234): early return on the first containment hit, threading the obstacle
instance state through the successive get_position calls. -/
def evaluate_collision_loop (d : Dist) (sev : Tck → ℚ → ℚ) :
    ObstacleState → List UasTelemetry → Option Bool
  | _, [] => some false
  | s, log :: rest =>
    match get_position d sev s log.timestamp with
    | none => none
    | some (p, s2) =>
      if contains_pos d s2.obst p.1 p.2.1 p.2.2 log.uas_position then some true
      else evaluate_collision_loop d sev s2 rest

/-- evaluate_collision_with_uas (moving_obstacle.py lines 219-234).
Modelled from the spec: UasTelemetry.interpolate (not under src/) is the
external telemetry densifier of spec section 6.2, kept as a parameter. -/
def evaluate_collision_with_uas (d : Dist) (sev : Tck → ℚ → ℚ)
    (interpolate : List UasTelemetry → List UasTelemetry) (s : ObstacleState)
    (uas_telemetry_logs : List UasTelemetry) : Option Bool :=
  evaluate_collision_loop d sev s (interpolate uas_telemetry_logs)

/-- Coherence of an instance's caches: each cache is either unpopulated or
holds exactly the value a get_position call computes for this obstacle. -/
def CacheOk (d : Dist) (s : ObstacleState) : Prop :=
  (s.preprocessed_waypoints = none ∨
     s.preprocessed_waypoints = some (dedup_waypoints d s.obst.waypoints)) ∧
  (s.preprocessed_spline_curve = none ∨
     s.preprocessed_spline_curve =
       get_spline_curve d s.obst (dedup_waypoints d s.obst.waypoints))

/-- An index argument failing get_waypoint_travel_time's validation: the
Python None, a negative value, or a value at least the list length. -/
def BadIdx (len : ℕ) : Option ℤ → Prop
  | none => True
  | some v => v < 0 ∨ (len : ℤ) ≤ v

instance (len : ℕ) (x : Option ℤ) : Decidable (BadIdx len x) := by
  cases x with
  | none => exact isTrue trivial
  | some v => exact inferInstanceAs (Decidable (v < 0 ∨ (len : ℤ) ≤ v))

/-- Taxicab instance of the abstract distance function, used to run the
development on concrete inputs; it is symmetric, non-negative and zero
exactly on coincident points, as spec section 4.1 requires. -/
def dTaxi : Dist := fun p q =>
  |p.1 - q.1| + |p.2.1 - q.2.1| + |p.2.2 - q.2.2|

/-- Concrete waypoint used by the evaluation theorems. -/
def exW1 : Waypoint := ⟨⟨⟨1, 2⟩, 3⟩⟩

/-- Concrete waypoint used by the evaluation theorems. -/
def exW2 : Waypoint := ⟨⟨⟨4, 5⟩, 6⟩⟩

/-- Concrete obstacle used by the evaluation theorems. -/
def exObst : MovingObstacle := ⟨[exW1, exW2], 10, 50⟩

/-- Concrete spline evaluator used by the evaluation theorems. -/
def sevEx : Tck → ℚ → ℚ := fun _ t => t

theorem dTaxi_nonneg : DistNonneg dTaxi := by
  intro p q
  unfold dTaxi
  positivity

theorem dTaxi_zero_iff : DistZeroIffEq dTaxi := by
  rintro ⟨p1, p2, p3⟩ ⟨q1, q2, q3⟩
  unfold dTaxi
  constructor
  · intro h
    have h1 : |p1 - q1| = 0 := by
      have := abs_nonneg (p1 - q1)
      have := abs_nonneg (p2 - q2)
      have := abs_nonneg (p3 - q3)
      linarith
    have h2 : |p2 - q2| = 0 := by
      have := abs_nonneg (p1 - q1)
      have := abs_nonneg (p2 - q2)
      have := abs_nonneg (p3 - q3)
      linarith
    have h3 : |p3 - q3| = 0 := by
      have := abs_nonneg (p1 - q1)
      have := abs_nonneg (p2 - q2)
      have := abs_nonneg (p3 - q3)
      linarith
    rw [abs_eq_zero, sub_eq_zero] at h1 h2 h3
    simp [h1, h2, h3]
  · intro h
    rw [Prod.mk.injEq, Prod.mk.injEq] at h
    obtain ⟨rfl, rfl, rfl⟩ := h
    simp

/-- C4: get_waypoint_travel_time returns the None sentinel exactly when the
waypoint list is empty or shorter than 2, either index is None, negative or at
least the list length, or the average speed is non-positive; otherwise it
returns the geodesic distance between the two indexed waypoints divided by the
speed converted to feet per second. Totality of the Lean function reflects
that the Python function never raises. -/
theorem claim_C4 (d : Dist) (o : MovingObstacle) (wpts : List Waypoint)
    (id_tm1 id_t : Option ℤ) :
    (get_waypoint_travel_time d o wpts id_tm1 id_t = none ↔
      (wpts = [] ∨ wpts.length < 2 ∨ BadIdx wpts.length id_tm1 ∨
        BadIdx wpts.length id_t ∨ o.speed_avg ≤ 0)) ∧
    (∀ i j, id_tm1 = some i → id_t = some j →
      ¬ (wpts = [] ∨ wpts.length < 2 ∨ BadIdx wpts.length id_tm1 ∨
          BadIdx wpts.length id_t ∨ o.speed_avg ≤ 0) →
      get_waypoint_travel_time d o wpts id_tm1 id_t =
        some (distance_to d (wpts.getD i.toNat dw0) (wpts.getD j.toNat dw0) /
              knots_to_feet_per_second o.speed_avg)) := by
  constructor
  · cases id_tm1 with
    | none =>
      simp only [get_waypoint_travel_time]
      split_ifs <;> simp [BadIdx]
    | some i =>
      cases id_t with
      | none =>
        simp only [get_waypoint_travel_time]
        split_ifs <;> simp [BadIdx]
      | some j =>
        simp only [get_waypoint_travel_time]
        split_ifs <;> simp_all [BadIdx]
  · intro i j hi hj hcon
    subst hi
    subst hj
    rcases not_or.mp hcon with ⟨h1, hcon⟩
    rcases not_or.mp hcon with ⟨h2, hcon⟩
    rcases not_or.mp hcon with ⟨h3, hcon⟩
    rcases not_or.mp hcon with ⟨h4, h5⟩
    have h3x : ¬ (i < 0 ∨ (wpts.length : ℤ) ≤ i) := by simpa [BadIdx] using h3
    have h4x : ¬ (j < 0 ∨ (wpts.length : ℤ) ≤ j) := by simpa [BadIdx] using h4
    simp only [get_waypoint_travel_time]
    rw [if_neg h1, if_neg h2, if_neg h3x, if_neg h4x, if_neg h5]

/-- Witness for C4 at a concrete two-waypoint circuit with indices 0 and 1. -/
theorem claim_C4_witness :
    ¬ (([exW1, exW2] : List Waypoint) = [] ∨
        ([exW1, exW2] : List Waypoint).length < 2 ∨
        BadIdx ([exW1, exW2] : List Waypoint).length (some 0) ∨
        BadIdx ([exW1, exW2] : List Waypoint).length (some 1) ∨
        exObst.speed_avg ≤ 0) ∧
    get_waypoint_travel_time dTaxi exObst [exW1, exW2] (some 0) (some 1) =
      some (distance_to dTaxi (([exW1, exW2] : List Waypoint).getD
              (Int.toNat 0) dw0)
            (([exW1, exW2] : List Waypoint).getD (Int.toNat 1) dw0) /
            knots_to_feet_per_second exObst.speed_avg) :=
  ⟨by decide,
   (claim_C4 dTaxi exObst [exW1, exW2] (some 0) (some 1)).2 0 1 rfl rfl
     (by decide)⟩

theorem optMap_eq_map (f : ℕ → Option ℚ) (g : ℕ → ℚ) :
    ∀ l : List ℕ, (∀ i ∈ l, f i = some (g i)) → optMap f l = some (l.map g) := by
  intro l
  induction l with
  | nil => intro _; rfl
  | cons a as ih =>
    intro h
    have ha := h a (List.mem_cons_self a as)
    have has := ih (fun i hi => h i (List.mem_cons_of_mem a hi))
    simp only [optMap, ha, has, List.map]

theorem optMap_length (f : ℕ → Option ℚ) :
    ∀ l : List ℕ, ∀ v, optMap f l = some v → v.length = l.length := by
  intro l
  induction l with
  | nil =>
    intro v hv
    simp only [optMap] at hv
    simp [← Option.some.injEq _ _ |>.mp hv]
  | cons a as ih =>
    intro v hv
    simp only [optMap] at hv
    cases hfa : f a with
    | none => rw [hfa] at hv; exact absurd hv (by simp)
    | some x =>
      rw [hfa] at hv
      cases hrest : optMap f as with
      | none => rw [hrest] at hv; exact absurd hv (by simp)
      | some xs =>
        rw [hrest] at hv
        simp only [Option.some.injEq] at hv
        subst hv
        simp [ih xs hrest]

theorem gwtt_some (d : Dist) (o : MovingObstacle) (wpts : List Waypoint)
    (i j : ℤ) (h2 : 2 ≤ wpts.length) (hs : 0 < o.speed_avg)
    (hi : 0 ≤ i) (hi2 : i < (wpts.length : ℤ))
    (hj : 0 ≤ j) (hj2 : j < (wpts.length : ℤ)) :
    get_waypoint_travel_time d o wpts (some i) (some j) =
      some (distance_to d (wpts.getD i.toNat dw0) (wpts.getD j.toNat dw0) /
            knots_to_feet_per_second o.speed_avg) := by
  have h1 : wpts ≠ [] := by
    intro h
    rw [h] at h2
    simp at h2
  simp only [get_waypoint_travel_time]
  rw [if_neg h1, if_neg (by omega), if_neg (by omega), if_neg (by omega),
    if_neg (by linarith)]

theorem getD_map_range (f : ℕ → ℚ) (n m : ℕ) (h : m < n) (dflt : ℚ) :
    ((List.range n).map f).getD m dflt = f m := by
  rw [List.getD_eq_getElem?_getD, List.getElem?_map]
  simp [List.getElem?_range, h]

theorem getD_of_lt (l : List ℚ) (n : ℕ) (h : n < l.length) (d1 d2 : ℚ) :
    l.getD n d1 = l.getD n d2 := by
  rw [List.getD_eq_getElem?_getD, List.getD_eq_getElem?_getD,
    List.getElem?_eq_getElem h]
  rfl

/-- C10: with at least two waypoints and positive speed, every index pair
((i-1) mod N, i mod N) that get_inter_waypoint_travel_times passes to
get_waypoint_travel_time passes validation, so the None sentinel branch is
unreachable and the travel-times array is built without error. -/
theorem claim_C10 (d : Dist) (o : MovingObstacle) (wpts : List Waypoint)
    (h2 : 2 ≤ wpts.length) (hs : 0 < o.speed_avg) :
    (∀ i : ℕ, 1 ≤ i → i ≤ wpts.length →
      get_waypoint_travel_time d o wpts
        (some (((i : ℤ) - 1) % (wpts.length : ℤ)))
        (some ((i : ℤ) % (wpts.length : ℤ))) ≠ none) ∧
    ∃ ts : List ℚ, get_inter_waypoint_travel_times d o wpts = some ts := by
  have hN : (0 : ℤ) < (wpts.length : ℤ) := by
    have : 0 < wpts.length := by omega
    exact_mod_cast this
  have hcall : ∀ i : ℕ, i ∈ (List.range wpts.length).map (· + 1) →
      get_waypoint_travel_time d o wpts
        (some (((i : ℤ) - 1) % (wpts.length : ℤ)))
        (some ((i : ℤ) % (wpts.length : ℤ))) =
      some ((fun i : ℕ =>
          distance_to d
            (wpts.getD ((((i : ℤ) - 1) % (wpts.length : ℤ)).toNat) dw0)
            (wpts.getD (((i : ℤ) % (wpts.length : ℤ)).toNat) dw0) /
          knots_to_feet_per_second o.speed_avg) i) := by
    intro i _
    exact gwtt_some d o wpts _ _ h2 hs
      (Int.emod_nonneg _ (by omega)) (Int.emod_lt_of_pos _ hN)
      (Int.emod_nonneg _ (by omega)) (Int.emod_lt_of_pos _ hN)
  constructor
  · intro i hi1 hi2
    rw [gwtt_some d o wpts _ _ h2 hs
      (Int.emod_nonneg _ (by omega)) (Int.emod_lt_of_pos _ hN)
      (Int.emod_nonneg _ (by omega)) (Int.emod_lt_of_pos _ hN)]
    simp
  · unfold get_inter_waypoint_travel_times
    rw [optMap_eq_map _ _ _ hcall]
    exact ⟨_, rfl⟩

/-- Witness for C10 at the concrete two-waypoint obstacle. -/
theorem claim_C10_witness :
    2 ≤ ([exW1, exW2] : List Waypoint).length ∧ 0 < exObst.speed_avg ∧
    ((∀ i : ℕ, 1 ≤ i → i ≤ ([exW1, exW2] : List Waypoint).length →
      get_waypoint_travel_time dTaxi exObst [exW1, exW2]
        (some (((i : ℤ) - 1) % (([exW1, exW2] : List Waypoint).length : ℤ)))
        (some ((i : ℤ) % (([exW1, exW2] : List Waypoint).length : ℤ))) ≠ none) ∧
    ∃ ts : List ℚ,
      get_inter_waypoint_travel_times dTaxi exObst [exW1, exW2] = some ts) :=
  ⟨by decide, by decide,
   claim_C10 dTaxi exObst [exW1, exW2] (by decide) (by decide)⟩

/-- Counterexample to C6 as stated: the claim quantifies over all circuits
with N ≥ 1 waypoints and positive speed, but on a single-waypoint circuit the
inner travel-time call returns the None sentinel (fewer than 2 waypoints) and
storing it into the numpy float array raises, so no N+1-entry sequence of
durations is returned: the model yields none. -/
theorem claim_C6_counterexample :
    get_inter_waypoint_travel_times dTaxi ⟨[exW1], 5, 50⟩ [exW1] = none ∧
    0 < (5 : ℚ) ∧ ([exW1] : List Waypoint).length = 1 := by
  refine ⟨by decide, by norm_num, by decide⟩

/-- C6 (amended: the circuit must have N ≥ 2 waypoints, since for N = 1 the
travel-time sentinel is stored into the array and the call fails): with N ≥ 2
waypoints and positive speed, the travel-times sequence has N+1 entries,
entry 0 is zero, entry i for 1 ≤ i ≤ N-1 is the travel time from waypoint i-1
to waypoint i, and entry N is the travel time from waypoint N-1 back to
waypoint 0. -/
theorem claim_C6 (d : Dist) (o : MovingObstacle) (wpts : List Waypoint)
    (h2 : 2 ≤ wpts.length) (hs : 0 < o.speed_avg) :
    ∃ ts : List ℚ, get_inter_waypoint_travel_times d o wpts = some ts ∧
      ts.length = wpts.length + 1 ∧
      ts.getD 0 9 = 0 ∧
      (∀ i : ℕ, 1 ≤ i → i < wpts.length →
        ts.getD i 9 =
          distance_to d (wpts.getD (i - 1) dw0) (wpts.getD i dw0) /
            knots_to_feet_per_second o.speed_avg) ∧
      ts.getD wpts.length 9 =
        distance_to d (wpts.getD (wpts.length - 1) dw0) (wpts.getD 0 dw0) /
          knots_to_feet_per_second o.speed_avg := by
  have hN : (0 : ℤ) < (wpts.length : ℤ) := by
    have : 0 < wpts.length := by omega
    exact_mod_cast this
  have hcall : ∀ i : ℕ, i ∈ (List.range wpts.length).map (· + 1) →
      get_waypoint_travel_time d o wpts
        (some (((i : ℤ) - 1) % (wpts.length : ℤ)))
        (some ((i : ℤ) % (wpts.length : ℤ))) =
      some ((fun i : ℕ =>
          distance_to d
            (wpts.getD ((((i : ℤ) - 1) % (wpts.length : ℤ)).toNat) dw0)
            (wpts.getD (((i : ℤ) % (wpts.length : ℤ)).toNat) dw0) /
          knots_to_feet_per_second o.speed_avg) i) := by
    intro i _
    exact gwtt_some d o wpts _ _ h2 hs
      (Int.emod_nonneg _ (by omega)) (Int.emod_lt_of_pos _ hN)
      (Int.emod_nonneg _ (by omega)) (Int.emod_lt_of_pos _ hN)
  have hmm : get_inter_waypoint_travel_times d o wpts =
      some (0 :: ((List.range wpts.length).map (· + 1)).map (fun i : ℕ =>
        distance_to d
          (wpts.getD ((((i : ℤ) - 1) % (wpts.length : ℤ)).toNat) dw0)
          (wpts.getD (((i : ℤ) % (wpts.length : ℤ)).toNat) dw0) /
        knots_to_feet_per_second o.speed_avg)) := by
    unfold get_inter_waypoint_travel_times
    rw [optMap_eq_map _ _ _ hcall]
    rfl
  refine ⟨_, hmm, ?_, ?_, ?_, ?_⟩
  · simp
  · rfl
  · intro i hi1 hi2
    obtain ⟨m, rfl⟩ : ∃ m, i = m + 1 := ⟨i - 1, by omega⟩
    rw [List.getD_cons_succ, List.map_map, getD_map_range _ _ _ (by omega)]
    have e1 : (((m + 1 : ℕ) : ℤ) - 1) % ((wpts.length : ℕ) : ℤ) = (m : ℤ) := by
      rw [Int.emod_eq_of_lt (by omega) (by omega)]
      omega
    have e2 : ((m + 1 : ℕ) : ℤ) % ((wpts.length : ℕ) : ℤ) =
        ((m + 1 : ℕ) : ℤ) := by
      rw [Int.emod_eq_of_lt (by omega) (by omega)]
    simp only [Function.comp_apply, e1, e2]
    norm_num
  · have hstep : ∀ n : ℕ, n < wpts.length →
        (0 :: ((List.range wpts.length).map (· + 1)).map (fun i : ℕ =>
          distance_to d
            (wpts.getD ((((i : ℤ) - 1) % (wpts.length : ℤ)).toNat) dw0)
            (wpts.getD (((i : ℤ) % (wpts.length : ℤ)).toNat) dw0) /
          knots_to_feet_per_second o.speed_avg)).getD (n + 1) 9 =
        (fun i : ℕ =>
          distance_to d
            (wpts.getD ((((i : ℤ) - 1) % (wpts.length : ℤ)).toNat) dw0)
            (wpts.getD (((i : ℤ) % (wpts.length : ℤ)).toNat) dw0) /
          knots_to_feet_per_second o.speed_avg) (n + 1) := by
      intro n hn
      rw [List.getD_cons_succ, List.map_map, getD_map_range _ _ _ hn]
      rfl
    have h3 := hstep (wpts.length - 1) (by omega)
    rw [show (wpts.length - 1) + 1 = wpts.length from by omega] at h3
    rw [h3]
    have e1 : ((wpts.length : ℤ) - 1) % (wpts.length : ℤ) =
        ((wpts.length - 1 : ℕ) : ℤ) := by
      rw [Int.emod_eq_of_lt (by omega) (by omega)]
      omega
    have e2 : (wpts.length : ℤ) % (wpts.length : ℤ) = 0 := Int.emod_self
    simp only [e1, e2]
    norm_num

/-- Witness for C6's amended theorem at the concrete two-waypoint obstacle. -/
theorem claim_C6_witness :
    2 ≤ ([exW1, exW2] : List Waypoint).length ∧ 0 < exObst.speed_avg ∧
    (∃ ts : List ℚ,
      get_inter_waypoint_travel_times dTaxi exObst [exW1, exW2] = some ts ∧
      ts.length = ([exW1, exW2] : List Waypoint).length + 1 ∧
      ts.getD 0 9 = 0 ∧
      (∀ i : ℕ, 1 ≤ i → i < ([exW1, exW2] : List Waypoint).length →
        ts.getD i 9 =
          distance_to dTaxi (([exW1, exW2] : List Waypoint).getD (i - 1) dw0)
            (([exW1, exW2] : List Waypoint).getD i dw0) /
            knots_to_feet_per_second exObst.speed_avg) ∧
      ts.getD ([exW1, exW2] : List Waypoint).length 9 =
        distance_to dTaxi
          (([exW1, exW2] : List Waypoint).getD
            (([exW1, exW2] : List Waypoint).length - 1) dw0)
          (([exW1, exW2] : List Waypoint).getD 0 dw0) /
          knots_to_feet_per_second exObst.speed_avg) :=
  ⟨by decide, by decide,
   claim_C6 dTaxi exObst [exW1, exW2] (by decide) (by decide)⟩

theorem cumsumAux_length : ∀ (l : List ℚ) (acc : ℚ),
    (cumsumAux acc l).length = l.length := by
  intro l
  induction l with
  | nil => intro acc; rfl
  | cons x xs ih => intro acc; simp [cumsumAux, ih]

theorem spline_ys_length (wpts : List Waypoint) (f : Waypoint → ℚ) :
    (spline_ys wpts f).length = wpts.length + 1 := by
  simp [spline_ys]

theorem spline_ys_getD_last (wpts : List Waypoint) (f : Waypoint → ℚ) :
    (spline_ys wpts f).getD wpts.length 99 = 0 := by
  unfold spline_ys
  rw [getD_map_range _ _ _ (by omega)]
  simp

theorem spline_ys_getD_lt (wpts : List Waypoint) (f : Waypoint → ℚ) (k : ℕ)
    (hk : k < wpts.length) :
    (spline_ys wpts f).getD k 99 = f (wpts.getD k dw0) := by
  unfold spline_ys
  rw [getD_map_range _ _ _ (by omega)]
  simp [hk]

theorem inter_times_length (d : Dist) (o : MovingObstacle)
    (wpts : List Waypoint) (ts : List ℚ)
    (hts : get_inter_waypoint_travel_times d o wpts = some ts) :
    ts.length = wpts.length + 1 := by
  unfold get_inter_waypoint_travel_times at hts
  cases ho : optMap
      (fun i =>
        get_waypoint_travel_time d o wpts
          (some (((i : ℤ) - 1) % (wpts.length : ℤ)))
          (some ((i : ℤ) % (wpts.length : ℤ))))
      ((List.range wpts.length).map (· + 1)) with
  | none => rw [ho] at hts; simp at hts
  | some v =>
    rw [ho] at hts
    have h2 : (0 : ℚ) :: v = ts := by simpa using hts
    have h3 := optMap_length _ _ _ ho
    rw [← h2]
    simp only [List.length_cons, h3, List.length_map, List.length_range]

/-- Counterexample to C5 as stated: for the two-waypoint circuit with first
latitude 1, the latitude control values handed to the periodic spline fit are
[1, 4, 0]: the last control point carries the array's zero placeholder, not a
repeat of control point 0's coordinate 1, so the claimed "control point N
repeats the coordinate of control point 0" is false at this input. -/
theorem claim_C5_counterexample :
    (get_spline_curve dTaxi exObst [exW1, exW2]).map
        (fun sc => (sc.2.getD 0 tck0).y) = some [1, 4, 0] ∧
    ¬ ((0 : ℚ) = 1) := by
  refine ⟨by decide, by norm_num⟩

/-- C5 (amended: the control points passed to the periodic fit for each
dimension are (cumulative_arrival_time[k], coordinate[k]) for k = 0..N, where
control point N uses the total circuit period as its time coordinate but
carries the zero-initialised placeholder as its coordinate — splrep with
per=1 ignores that final coordinate — rather than a repeat of control point
0's coordinate): characterisation of the tck data get_spline_curve builds. -/
theorem claim_C5 (d : Dist) (o : MovingObstacle) (wpts : List Waypoint)
    (ts : List ℚ) (T : ℚ) (reps : List Tck)
    (hts : get_inter_waypoint_travel_times d o wpts = some ts)
    (hsc : get_spline_curve d o wpts = some (T, reps)) :
    reps.length = 3 ∧
    (∀ r ∈ reps, r.x = get_waypoint_times ts ∧
      r.x.length = wpts.length + 1 ∧
      r.y.length = wpts.length + 1 ∧
      r.y.getD wpts.length 99 = 0 ∧
      r.x.getD wpts.length 99 = T) ∧
    (∀ k : ℕ, k < wpts.length →
      (reps.getD 0 tck0).y.getD k 99 =
        (wpts.getD k dw0).position.gps_position.latitude ∧
      (reps.getD 1 tck0).y.getD k 99 =
        (wpts.getD k dw0).position.gps_position.longitude ∧
      (reps.getD 2 tck0).y.getD k 99 =
        (wpts.getD k dw0).position.altitude_msl) := by
  have hlen : ts.length = wpts.length + 1 := inter_times_length d o wpts ts hts
  have hplen : (get_waypoint_times ts).length = wpts.length + 1 := by
    unfold get_waypoint_times
    rw [cumsumAux_length]
    exact hlen
  simp only [get_spline_curve, hts] at hsc
  rw [Option.some.injEq, Prod.mk.injEq] at hsc
  obtain ⟨hT, hreps⟩ := hsc
  subst hreps
  have hxlast : (get_waypoint_times ts).getD wpts.length 99 = T := by
    rw [getD_of_lt _ _ (by omega) 99 0, ← hT, hplen]
    simp
  refine ⟨rfl, ?_, ?_⟩
  · intro r hr
    simp only [List.mem_cons, List.not_mem_nil, or_false] at hr
    rcases hr with h | h | h <;> subst h <;> dsimp only <;>
      exact ⟨rfl, hplen, spline_ys_length wpts _, spline_ys_getD_last wpts _,
        hxlast⟩
  · intro k hk
    refine ⟨?_, ?_, ?_⟩ <;>
      simp only [List.getD_cons_zero, List.getD_cons_succ] <;>
      rw [spline_ys_getD_lt _ _ _ hk]

/-- Concrete inter-waypoint travel time of the example obstacle. -/
def exV : ℚ := 30861 / 57875

/-- Concrete cumulative arrival times of the example obstacle. -/
def exPosTimes : List ℚ := [0, exV, exV + exV]

/-- Concrete spline data of the example obstacle. -/
def exReps : List Tck :=
  [⟨exPosTimes, [1, 4, 0], 2⟩, ⟨exPosTimes, [2, 5, 0], 2⟩,
   ⟨exPosTimes, [3, 6, 0], 2⟩]

/-- Witness for C5's amended theorem at the concrete two-waypoint obstacle. -/
theorem claim_C5_witness :
    get_inter_waypoint_travel_times dTaxi exObst [exW1, exW2] =
      some [0, exV, exV] ∧
    get_spline_curve dTaxi exObst [exW1, exW2] = some (exV + exV, exReps) ∧
    (exReps.length = 3 ∧
    (∀ r ∈ exReps, r.x = get_waypoint_times [0, exV, exV] ∧
      r.x.length = ([exW1, exW2] : List Waypoint).length + 1 ∧
      r.y.length = ([exW1, exW2] : List Waypoint).length + 1 ∧
      r.y.getD ([exW1, exW2] : List Waypoint).length 99 = 0 ∧
      r.x.getD ([exW1, exW2] : List Waypoint).length 99 = exV + exV) ∧
    (∀ k : ℕ, k < ([exW1, exW2] : List Waypoint).length →
      (exReps.getD 0 tck0).y.getD k 99 =
        (([exW1, exW2] : List Waypoint).getD k dw0).position.gps_position.latitude ∧
      (exReps.getD 1 tck0).y.getD k 99 =
        (([exW1, exW2] : List Waypoint).getD k dw0).position.gps_position.longitude ∧
      (exReps.getD 2 tck0).y.getD k 99 =
        (([exW1, exW2] : List Waypoint).getD k dw0).position.altitude_msl)) :=
  have hts : get_inter_waypoint_travel_times dTaxi exObst [exW1, exW2] =
      some [0, exV, exV] := by
    norm_num +decide [get_inter_waypoint_travel_times, get_waypoint_travel_time,
      optMap, distance_to, dTaxi, Waypoint.pos3, exW1, exW2, exObst,
      knots_to_feet_per_second, exV, List.range_succ, List.getD]
  have hsc : get_spline_curve dTaxi exObst [exW1, exW2] =
      some (exV + exV, exReps) := by
    simp only [get_spline_curve, hts]
    norm_num +decide [get_waypoint_times, cumsumAux, spline_ys, exReps,
      exPosTimes, exV, exW1, exW2, List.range_succ, List.getD]
  ⟨hts, hsc,
   claim_C5 dTaxi exObst [exW1, exW2] [0, exV, exV] (exV + exV) exReps hts hsc⟩

theorem cumsumAux_getD : ∀ (l : List ℚ) (acc : ℚ) (k : ℕ), k < l.length →
    (cumsumAux acc l).getD k 0 = acc + (l.take (k + 1)).sum := by
  intro l
  induction l with
  | nil => intro acc k hk; simp at hk
  | cons x xs ih =>
    intro acc k hk
    cases k with
    | zero => simp [cumsumAux]
    | succ m =>
      simp only [cumsumAux, List.getD_cons_succ]
      rw [ih (acc + x) m (by simpa using hk)]
      simp only [List.take_succ_cons, List.sum_cons]
      ring

theorem sum_take_mono : ∀ (l : List ℚ), (∀ x ∈ l, 0 ≤ x) → ∀ i j : ℕ, i ≤ j →
    (l.take i).sum ≤ (l.take j).sum := by
  intro l
  induction l with
  | nil => intro _ i j _; simp
  | cons x xs ih =>
    intro h i j hij
    cases i with
    | zero =>
      simp only [List.take_zero, List.sum_nil]
      refine List.sum_nonneg ?_
      intro y hy
      exact h y (List.take_subset _ _ hy)
    | succ m =>
      cases j with
      | zero => omega
      | succ n =>
        simp only [List.take_succ_cons, List.sum_cons]
        have := ih (fun y hy => h y (List.mem_cons_of_mem x hy)) m n (by omega)
        linarith

/-- C7: on a non-empty travel-times sequence with non-negative entries and a
zero entry 0, get_waypoint_times returns a sequence of the same length whose
entries are the cumulative sums: entry 0 is 0, the sequence is monotonically
non-decreasing, and the last entry is the sum of all travel times (the total
period). -/
theorem claim_C7 (ts : List ℚ) (hne : 0 < ts.length)
    (hnn : ∀ x ∈ ts, 0 ≤ x) (h0 : ts.getD 0 0 = 0) :
    (get_waypoint_times ts).length = ts.length ∧
    (get_waypoint_times ts).getD 0 0 = 0 ∧
    (∀ i j : ℕ, i ≤ j → j < ts.length →
      (get_waypoint_times ts).getD i 0 ≤ (get_waypoint_times ts).getD j 0) ∧
    (get_waypoint_times ts).getD (ts.length - 1) 0 = ts.sum := by
  refine ⟨?_, ?_, ?_, ?_⟩
  · unfold get_waypoint_times
    exact cumsumAux_length ts 0
  · unfold get_waypoint_times
    rw [cumsumAux_getD ts 0 0 hne]
    cases ts with
    | nil => simp at hne
    | cons x xs =>
      simp only [List.getD_cons_zero] at h0
      simp [h0]
  · intro i j hij hj
    unfold get_waypoint_times
    rw [cumsumAux_getD ts 0 i (by omega), cumsumAux_getD ts 0 j hj]
    have := sum_take_mono ts hnn (i + 1) (j + 1) (by omega)
    linarith
  · unfold get_waypoint_times
    rw [cumsumAux_getD ts 0 (ts.length - 1) (by omega)]
    rw [show ts.length - 1 + 1 = ts.length from by omega, List.take_length]
    ring

/-- Witness for C7 at the concrete travel-times sequence [0, 2, 3]. -/
theorem claim_C7_witness :
    (0 < ([0, 2, 3] : List ℚ).length ∧ (∀ x ∈ ([0, 2, 3] : List ℚ), 0 ≤ x) ∧
      ([0, 2, 3] : List ℚ).getD 0 0 = 0) ∧
    ((get_waypoint_times [0, 2, 3]).length = ([0, 2, 3] : List ℚ).length ∧
    (get_waypoint_times [0, 2, 3]).getD 0 0 = 0 ∧
    (∀ i j : ℕ, i ≤ j → j < ([0, 2, 3] : List ℚ).length →
      (get_waypoint_times [0, 2, 3]).getD i 0 ≤
        (get_waypoint_times [0, 2, 3]).getD j 0) ∧
    (get_waypoint_times [0, 2, 3]).getD (([0, 2, 3] : List ℚ).length - 1) 0 =
      ([0, 2, 3] : List ℚ).sum) :=
  ⟨⟨by decide, by decide, by decide⟩,
   claim_C7 [0, 2, 3] (by decide) (by decide) (by decide)⟩

theorem pos3_inj (w1 w2 : Waypoint) (h : w1.pos3 = w2.pos3) : w1 = w2 := by
  obtain ⟨⟨⟨a, b⟩, c⟩⟩ := w1
  obtain ⟨⟨⟨e, f⟩, g⟩⟩ := w2
  simp only [Waypoint.pos3, Prod.mk.injEq] at h
  obtain ⟨rfl, rfl, rfl⟩ := h
  rfl

theorem distance_to_zero_iff (d : Dist) (hz : DistZeroIffEq d)
    (a b : Waypoint) : distance_to d a b = 0 ↔ a = b := by
  constructor
  · intro h
    exact pos3_inj a b ((hz a.pos3 b.pos3).mp h)
  · intro h
    rw [h]
    exact (hz b.pos3 b.pos3).mpr rfl

theorem dedupAux_chain (d : Dist) (hz : DistZeroIffEq d) :
    ∀ (ws : List Waypoint) (prev : Waypoint),
      List.Chain (fun a b => a ≠ b) prev (dedupAux d prev ws) := by
  intro ws
  induction ws with
  | nil => intro prev; exact List.Chain.nil
  | cons w ws ih =>
    intro prev
    by_cases hw : distance_to d w prev = 0
    · have hwp : w = prev := (distance_to_zero_iff d hz w prev).mp hw
      simp only [dedupAux]
      rw [if_neg (fun hc => hc hw)]
      simp only [List.nil_append]
      rw [← hwp]
      exact ih w
    · simp only [dedupAux]
      rw [if_pos hw]
      simp only [List.singleton_append]
      refine List.Chain.cons ?_ (ih w)
      exact fun he => hw ((distance_to_zero_iff d hz w prev).mpr he.symm)

theorem dedup_chain (d : Dist) (hz : DistZeroIffEq d) (l : List Waypoint) :
    List.Chain' (fun a b => a ≠ b) (dedup_waypoints d l) := by
  cases l with
  | nil => exact trivial
  | cons w ws => exact dedupAux_chain d hz ws w

theorem dedup_of_chain (d : Dist) (hz : DistZeroIffEq d) :
    ∀ l : List Waypoint, List.Chain' (fun a b => a ≠ b) l →
      dedup_waypoints d l = l := by
  intro l
  induction l with
  | nil => intro _; rfl
  | cons a as ih =>
    intro h
    cases as with
    | nil => rfl
    | cons b bs =>
      have hab : a ≠ b := (List.chain'_cons.mp h).1
      have h2 : List.Chain' (fun a b => a ≠ b) (b :: bs) :=
        (List.chain'_cons.mp h).2
      have hd : distance_to d b a ≠ 0 :=
        fun hc => hab (((distance_to_zero_iff d hz b a).mp hc).symm)
      have htail : dedupAux d b bs = bs := by
        have hib : dedup_waypoints d (b :: bs) = b :: bs := ih h2
        simpa [dedup_waypoints] using hib
      simp [dedup_waypoints, dedupAux, hd, htail]

/-- C8: the waypoint deduplication pass is idempotent, assuming the distance
function is zero exactly on coincident points: applying the pass to its own
output returns that output unchanged. -/
theorem claim_C8 (d : Dist) (hz : DistZeroIffEq d) (l : List Waypoint) :
    dedup_waypoints d (dedup_waypoints d l) = dedup_waypoints d l :=
  dedup_of_chain d hz _ (dedup_chain d hz l)

/-- Witness for C8 at the taxicab distance and a list with a duplicate. -/
theorem claim_C8_witness :
    DistZeroIffEq dTaxi ∧
    dedup_waypoints dTaxi (dedup_waypoints dTaxi [exW1, exW1, exW2]) =
      dedup_waypoints dTaxi [exW1, exW1, exW2] :=
  ⟨dTaxi_zero_iff, claim_C8 dTaxi dTaxi_zero_iff [exW1, exW1, exW2]⟩

theorem inter_times_some (d : Dist) (o : MovingObstacle) (wpts : List Waypoint)
    (h2 : 2 ≤ wpts.length) (hs : 0 < o.speed_avg) :
    get_inter_waypoint_travel_times d o wpts =
      some (0 :: ((List.range wpts.length).map (· + 1)).map (fun i : ℕ =>
        distance_to d
          (wpts.getD ((((i : ℤ) - 1) % (wpts.length : ℤ)).toNat) dw0)
          (wpts.getD (((i : ℤ) % (wpts.length : ℤ)).toNat) dw0) /
        knots_to_feet_per_second o.speed_avg)) := by
  have hN : (0 : ℤ) < (wpts.length : ℤ) := by
    have : 0 < wpts.length := by omega
    exact_mod_cast this
  have hcall : ∀ i : ℕ, i ∈ (List.range wpts.length).map (· + 1) →
      get_waypoint_travel_time d o wpts
        (some (((i : ℤ) - 1) % (wpts.length : ℤ)))
        (some ((i : ℤ) % (wpts.length : ℤ))) =
      some ((fun i : ℕ =>
          distance_to d
            (wpts.getD ((((i : ℤ) - 1) % (wpts.length : ℤ)).toNat) dw0)
            (wpts.getD (((i : ℤ) % (wpts.length : ℤ)).toNat) dw0) /
          knots_to_feet_per_second o.speed_avg) i) := by
    intro i _
    exact gwtt_some d o wpts _ _ h2 hs
      (Int.emod_nonneg _ (by omega)) (Int.emod_lt_of_pos _ hN)
      (Int.emod_nonneg _ (by omega)) (Int.emod_lt_of_pos _ hN)
  unfold get_inter_waypoint_travel_times
  rw [optMap_eq_map _ _ _ hcall]
  rfl

theorem spline_curve_isSome (d : Dist) (o : MovingObstacle)
    (wpts : List Waypoint) (h2 : 2 ≤ wpts.length) (hs : 0 < o.speed_avg) :
    ∃ sc : ℚ × List Tck, get_spline_curve d o wpts = some sc := by
  simp only [get_spline_curve, inter_times_some d o wpts h2 hs]
  exact ⟨_, rfl⟩

theorem get_position_spec (d : Dist) (sev : Tck → ℚ → ℚ) (s : ObstacleState)
    (t : ℚ) (hC : CacheOk d s) :
    ∃ s2 : ObstacleState,
      get_position d sev s t = some (get_position_result d sev s.obst t, s2) ∧
      CacheOk d s2 ∧ s2.obst = s.obst := by
  obtain ⟨o, pw, psc⟩ := s
  obtain ⟨hw, hsc⟩ := hC
  simp only at hw hsc
  rcases hw with hhw | hhw <;> subst hhw <;>
  · simp only [get_position, get_position_result]
    by_cases h0 : (dedup_waypoints d o.waypoints).length = 0
    · rw [if_pos h0, if_pos h0]
      exact ⟨_, rfl, ⟨Or.inr rfl, hsc⟩, rfl⟩
    · rw [if_neg h0, if_neg h0]
      by_cases h1 : (dedup_waypoints d o.waypoints).length = 1 ∨ o.speed_avg ≤ 0
      · rw [if_pos h1, if_pos h1]
        exact ⟨_, rfl, ⟨Or.inr rfl, hsc⟩, rfl⟩
      · rw [if_neg h1, if_neg h1]
        have h2 : 2 ≤ (dedup_waypoints d o.waypoints).length := by
          rcases Nat.lt_or_ge (dedup_waypoints d o.waypoints).length 2 with h | h
          · exfalso
            interval_cases hh : (dedup_waypoints d o.waypoints).length
            · exact h0 rfl
            · exact h1 (Or.inl rfl)
          · exact h
        have hs : 0 < o.speed_avg := by
          rcases not_or.mp h1 with ⟨_, hsp⟩
          exact lt_of_not_le hsp
        obtain ⟨sc, hsceq⟩ :=
          spline_curve_isSome d o (dedup_waypoints d o.waypoints) h2 hs
        rcases hsc with hpsc | hpsc <;> subst hpsc
        · rw [hsceq]
          exact ⟨_, rfl, ⟨Or.inr rfl, Or.inr hsceq.symm⟩, rfl⟩
        · rw [hsceq]
          exact ⟨_, rfl, ⟨Or.inr rfl, Or.inr hsceq.symm⟩, rfl⟩

/-- C2: get_position on an obstacle whose deduplicated circuit is empty
returns the sentinel (0, 0, 0) without failing, for every timestamp; and when
the deduplicated circuit is non-empty with exactly one waypoint, or the
average speed is non-positive, it returns the first waypoint's (latitude,
longitude, altitude_msl), independent of the timestamp. -/
theorem claim_C2 (d : Dist) (sev : Tck → ℚ → ℚ) (o : MovingObstacle) (t : ℚ) :
    ((dedup_waypoints d o.waypoints).length = 0 →
      (get_position d sev (mkState o) t).map Prod.fst = some (0, 0, 0)) ∧
    ((dedup_waypoints d o.waypoints).length ≠ 0 →
      ((dedup_waypoints d o.waypoints).length = 1 ∨ o.speed_avg ≤ 0) →
      (get_position d sev (mkState o) t).map Prod.fst =
        some ((dedup_waypoints d o.waypoints).getD 0 dw0).pos3) := by
  constructor
  · intro h0
    simp only [get_position, mkState]
    rw [if_pos h0]
    rfl
  · intro h0 h1
    simp only [get_position, mkState]
    rw [if_neg h0, if_pos h1]
    rfl

/-- Witness for C2: an empty circuit yields the sentinel; a one-waypoint
circuit and a non-positive speed each yield the first waypoint's position. -/
theorem claim_C2_witness :
    ((get_position dTaxi sevEx (mkState ⟨[], 10, 50⟩) 7).map Prod.fst =
      some (0, 0, 0)) ∧
    ((get_position dTaxi sevEx (mkState ⟨[exW1], 10, 50⟩) 7).map Prod.fst =
      some ((dedup_waypoints dTaxi [exW1]).getD 0 dw0).pos3) ∧
    ((get_position dTaxi sevEx (mkState ⟨[exW1], -3, 50⟩) 8).map Prod.fst =
      some ((dedup_waypoints dTaxi [exW1]).getD 0 dw0).pos3) :=
  ⟨(claim_C2 dTaxi sevEx ⟨[], 10, 50⟩ 7).1 rfl,
   (claim_C2 dTaxi sevEx ⟨[exW1], 10, 50⟩ 7).2 (by decide) (Or.inl (by decide)),
   (claim_C2 dTaxi sevEx ⟨[exW1], -3, 50⟩ 8).2 (by decide) (Or.inr (by decide))⟩

/-- C9: get_position is deterministic within a run: two instance states with
the same obstacle fields and coherent caches (populated or not, in any
combination) produce the same position triple at the same timestamp, which is
the pure function of the obstacle and the timestamp; the timestamp is taken
relative to the fixed constant epoch_time. -/
theorem claim_C9 (d : Dist) (sev : Tck → ℚ → ℚ) (s1 s2 : ObstacleState)
    (t : ℚ) (h1 : CacheOk d s1) (h2 : CacheOk d s2) (ho : s1.obst = s2.obst) :
    (get_position d sev s1 t).map Prod.fst =
      (get_position d sev s2 t).map Prod.fst ∧
    (get_position d sev s1 t).map Prod.fst =
      some (get_position_result d sev s1.obst t) := by
  obtain ⟨r1, e1, _, _⟩ := get_position_spec d sev s1 t h1
  obtain ⟨r2, e2, _, _⟩ := get_position_spec d sev s2 t h2
  rw [e1, e2, ho]
  simp

/-- Concrete obstacle state with the waypoint cache already populated. -/
def exStatePop : ObstacleState :=
  ⟨exObst, some (dedup_waypoints dTaxi exObst.waypoints), none⟩

/-- Witness for C9: a fresh state and a state with a populated waypoint cache
agree on the position at timestamp 7. -/
theorem claim_C9_witness :
    CacheOk dTaxi (mkState exObst) ∧ CacheOk dTaxi exStatePop ∧
    ((get_position dTaxi sevEx (mkState exObst) 7).map Prod.fst =
      (get_position dTaxi sevEx exStatePop 7).map Prod.fst ∧
    (get_position dTaxi sevEx (mkState exObst) 7).map Prod.fst =
      some (get_position_result dTaxi sevEx (mkState exObst).obst 7)) :=
  ⟨⟨Or.inl rfl, Or.inl rfl⟩, ⟨Or.inr rfl, Or.inl rfl⟩,
   claim_C9 dTaxi sevEx (mkState exObst) exStatePop 7
     ⟨Or.inl rfl, Or.inl rfl⟩ ⟨Or.inr rfl, Or.inl rfl⟩ rfl⟩

theorem any_perm (l1 l2 : List UasTelemetry) (f : UasTelemetry → Bool)
    (h : l1.Perm l2) : l1.any f = l2.any f := by
  cases hb : l2.any f with
  | true =>
    rw [List.any_eq_true] at hb ⊢
    obtain ⟨x, hx, hfx⟩ := hb
    exact ⟨x, h.mem_iff.mpr hx, hfx⟩
  | false =>
    cases hb2 : l1.any f with
    | false => rfl
    | true =>
      rw [List.any_eq_true] at hb2
      obtain ⟨x, hx, hfx⟩ := hb2
      have hcontra : l2.any f = true :=
        List.any_eq_true.mpr ⟨x, h.mem_iff.mp hx, hfx⟩
      rw [hcontra] at hb
      cases hb

theorem evalLoop_spec (d : Dist) (sev : Tck → ℚ → ℚ) :
    ∀ (logs : List UasTelemetry) (s : ObstacleState), CacheOk d s →
      evaluate_collision_loop d sev s logs =
        some (logs.any (fun log =>
          contains_pos d s.obst
            (get_position_result d sev s.obst log.timestamp).1
            (get_position_result d sev s.obst log.timestamp).2.1
            (get_position_result d sev s.obst log.timestamp).2.2
            log.uas_position)) := by
  intro logs
  induction logs with
  | nil => intro s hC; rfl
  | cons log rest ih =>
    intro s hC
    obtain ⟨s2, he, hc2, ho2⟩ := get_position_spec d sev s log.timestamp hC
    simp only [evaluate_collision_loop, he]
    rw [ho2]
    by_cases hhit : contains_pos d s.obst
        (get_position_result d sev s.obst log.timestamp).1
        (get_position_result d sev s.obst log.timestamp).2.1
        (get_position_result d sev s.obst log.timestamp).2.2
        log.uas_position = true
    · rw [if_pos hhit]
      simp [List.any_cons, hhit]
    · rw [if_neg hhit]
      rw [ih s2 hc2, ho2]
      have hf := (Bool.not_eq_true _) ▸ hhit
      simp [List.any_cons, hf]

/-- C1: on a coherent instance state, evaluate_collision_with_uas returns
true exactly when some sample of the densified telemetry sequence lies within
(inclusively) sphere_radius of the obstacle's position at that sample's
timestamp, returns false exactly when no sample does, and the boolean does
not depend on the order in which the densified samples are evaluated. -/
theorem claim_C1 (d : Dist) (sev : Tck → ℚ → ℚ)
    (interpolate : List UasTelemetry → List UasTelemetry)
    (s : ObstacleState) (logs : List UasTelemetry) (hC : CacheOk d s) :
    (evaluate_collision_with_uas d sev interpolate s logs = some true ↔
      ∃ log ∈ interpolate logs,
        d (get_position_result d sev s.obst log.timestamp)
          (log.uas_position.gps_position.latitude,
           log.uas_position.gps_position.longitude,
           log.uas_position.altitude_msl) ≤ s.obst.sphere_radius) ∧
    (evaluate_collision_with_uas d sev interpolate s logs = some false ↔
      ¬ ∃ log ∈ interpolate logs,
        d (get_position_result d sev s.obst log.timestamp)
          (log.uas_position.gps_position.latitude,
           log.uas_position.gps_position.longitude,
           log.uas_position.altitude_msl) ≤ s.obst.sphere_radius) ∧
    (∀ interp2 : List UasTelemetry → List UasTelemetry,
      (interp2 logs).Perm (interpolate logs) →
      evaluate_collision_with_uas d sev interp2 s logs =
        evaluate_collision_with_uas d sev interpolate s logs) := by
  unfold evaluate_collision_with_uas
  rw [evalLoop_spec d sev (interpolate logs) s hC]
  refine ⟨?_, ?_, ?_⟩
  · simp only [Option.some.injEq, List.any_eq_true, contains_pos,
      decide_eq_true_eq]
  · rw [Option.some.injEq]
    rw [show ((interpolate logs).any (fun log =>
        contains_pos d s.obst
          (get_position_result d sev s.obst log.timestamp).1
          (get_position_result d sev s.obst log.timestamp).2.1
          (get_position_result d sev s.obst log.timestamp).2.2
          log.uas_position) = false) ↔
        ¬ ((interpolate logs).any (fun log =>
          contains_pos d s.obst
            (get_position_result d sev s.obst log.timestamp).1
            (get_position_result d sev s.obst log.timestamp).2.1
            (get_position_result d sev s.obst log.timestamp).2.2
            log.uas_position) = true) from by
      cases (interpolate logs).any _ <;> simp]
    simp only [List.any_eq_true, contains_pos, decide_eq_true_eq]
  · intro interp2 hperm
    rw [evalLoop_spec d sev (interp2 logs) s hC]
    exact congrArg some (any_perm _ _ _ hperm)

/-- Witness for C1 at the fresh concrete obstacle state, the identity
densifier and the empty log list. -/
theorem claim_C1_witness :
    CacheOk dTaxi (mkState exObst) ∧
    ((evaluate_collision_with_uas dTaxi sevEx id (mkState exObst) [] =
        some true ↔
      ∃ log ∈ id ([] : List UasTelemetry),
        dTaxi (get_position_result dTaxi sevEx (mkState exObst).obst
            log.timestamp)
          (log.uas_position.gps_position.latitude,
           log.uas_position.gps_position.longitude,
           log.uas_position.altitude_msl) ≤ (mkState exObst).obst.sphere_radius) ∧
    (evaluate_collision_with_uas dTaxi sevEx id (mkState exObst) [] =
        some false ↔
      ¬ ∃ log ∈ id ([] : List UasTelemetry),
        dTaxi (get_position_result dTaxi sevEx (mkState exObst).obst
            log.timestamp)
          (log.uas_position.gps_position.latitude,
           log.uas_position.gps_position.longitude,
           log.uas_position.altitude_msl) ≤ (mkState exObst).obst.sphere_radius) ∧
    (∀ interp2 : List UasTelemetry → List UasTelemetry,
      (interp2 []).Perm (id ([] : List UasTelemetry)) →
      evaluate_collision_with_uas dTaxi sevEx interp2 (mkState exObst) [] =
        evaluate_collision_with_uas dTaxi sevEx id (mkState exObst) [])) :=
  ⟨⟨Or.inl rfl, Or.inl rfl⟩,
   claim_C1 dTaxi sevEx id (mkState exObst) [] ⟨Or.inl rfl, Or.inl rfl⟩⟩

theorem qmod_add_int_mul (t T : ℚ) (hT : T ≠ 0) (k : ℤ) :
    qmod (t + k * T) T = qmod t T := by
  unfold qmod
  have hdiv : (t + k * T) / T = t / T + k := by
    field_simp
  rw [hdiv, Int.floor_add_int]
  push_cast
  ring

theorem qmod_nonneg_lt (t T : ℚ) (hT : 0 < T) :
    0 ≤ qmod t T ∧ qmod t T < T := by
  have hfr : qmod t T = T * Int.fract (t / T) := by
    unfold qmod
    rw [Int.fract]
    field_simp
  constructor
  · rw [hfr]
    exact mul_nonneg hT.le (Int.fract_nonneg _)
  · rw [hfr]
    calc T * Int.fract (t / T) < T * 1 :=
          mul_lt_mul_of_pos_left (Int.fract_lt_one (t / T)) hT
      _ = T := mul_one T

/-- C3: for an obstacle whose deduplicated circuit has at least two (distinct
by construction) waypoints and whose speed is positive, and a distance
function that is non-negative and zero exactly on coincident points, the total
circuit period is positive, get_position at t and at t + k * total_period
agree for every timestamp t and integer k, and the reduced evaluation time
qmod lies in [0, total_period). -/
theorem claim_C3 (d : Dist) (sev : Tck → ℚ → ℚ) (o : MovingObstacle)
    (hnn : DistNonneg d) (hz : DistZeroIffEq d)
    (h2 : 2 ≤ (dedup_waypoints d o.waypoints).length) (hs : 0 < o.speed_avg)
    (t : ℚ) (k : ℤ) :
    0 < circuit_total_period d o ∧
    (get_position d sev (mkState o) (t + k * circuit_total_period d o)).map
        Prod.fst =
      (get_position d sev (mkState o) t).map Prod.fst ∧
    0 ≤ qmod (t - epoch_time) (circuit_total_period d o) ∧
    qmod (t - epoch_time) (circuit_total_period d o) <
      circuit_total_period d o := by
  have hts := inter_times_some d o (dedup_waypoints d o.waypoints) h2 hs
  obtain ⟨sc, hsceq⟩ :=
    spline_curve_isSome d o (dedup_waypoints d o.waypoints) h2 hs
  have hTP : circuit_total_period d o = sc.1 := by
    unfold circuit_total_period
    rw [hsceq]
  have hkfps : 0 < knots_to_feet_per_second o.speed_avg := by
    unfold knots_to_feet_per_second
    have : (0 : ℚ) < 11575 / 6858 := by norm_num
    exact mul_pos hs this
  -- identify the total period with the sum of the travel times
  have hscval : sc.1 =
      (get_waypoint_times (0 :: ((List.range
          (dedup_waypoints d o.waypoints).length).map (· + 1)).map
        (fun i : ℕ =>
          distance_to d
            ((dedup_waypoints d o.waypoints).getD
              ((((i : ℤ) - 1) %
                ((dedup_waypoints d o.waypoints).length : ℤ)).toNat) dw0)
            ((dedup_waypoints d o.waypoints).getD
              (((i : ℤ) %
                ((dedup_waypoints d o.waypoints).length : ℤ)).toNat) dw0) /
          knots_to_feet_per_second o.speed_avg))).getD
        ((get_waypoint_times (0 :: ((List.range
          (dedup_waypoints d o.waypoints).length).map (· + 1)).map
        (fun i : ℕ =>
          distance_to d
            ((dedup_waypoints d o.waypoints).getD
              ((((i : ℤ) - 1) %
                ((dedup_waypoints d o.waypoints).length : ℤ)).toNat) dw0)
            ((dedup_waypoints d o.waypoints).getD
              (((i : ℤ) %
                ((dedup_waypoints d o.waypoints).length : ℤ)).toNat) dw0) /
          knots_to_feet_per_second o.speed_avg))).length - 1) 0 := by
    simp only [get_spline_curve, hts] at hsceq
    rw [Option.some.injEq] at hsceq
    rw [← hsceq]
  have hTpos : 0 < sc.1 := by
    rw [hscval]
    have hlen0 : ((0 : ℚ) :: ((List.range
        (dedup_waypoints d o.waypoints).length).map (· + 1)).map
          (fun i : ℕ =>
            distance_to d
              ((dedup_waypoints d o.waypoints).getD
                ((((i : ℤ) - 1) %
                  ((dedup_waypoints d o.waypoints).length : ℤ)).toNat) dw0)
              ((dedup_waypoints d o.waypoints).getD
                (((i : ℤ) %
                  ((dedup_waypoints d o.waypoints).length : ℤ)).toNat) dw0) /
            knots_to_feet_per_second o.speed_avg)).length =
        (dedup_waypoints d o.waypoints).length + 1 := by
      simp
    unfold get_waypoint_times
    rw [cumsumAux_length, cumsumAux_getD _ _ _ (by rw [hlen0]; omega)]
    rw [show ((0 : ℚ) :: ((List.range
        (dedup_waypoints d o.waypoints).length).map (· + 1)).map
          (fun i : ℕ =>
            distance_to d
              ((dedup_waypoints d o.waypoints).getD
                ((((i : ℤ) - 1) %
                  ((dedup_waypoints d o.waypoints).length : ℤ)).toNat) dw0)
              ((dedup_waypoints d o.waypoints).getD
                (((i : ℤ) %
                  ((dedup_waypoints d o.waypoints).length : ℤ)).toNat) dw0) /
            knots_to_feet_per_second o.speed_avg)).length - 1 + 1 =
        ((0 : ℚ) :: ((List.range
        (dedup_waypoints d o.waypoints).length).map (· + 1)).map
          (fun i : ℕ =>
            distance_to d
              ((dedup_waypoints d o.waypoints).getD
                ((((i : ℤ) - 1) %
                  ((dedup_waypoints d o.waypoints).length : ℤ)).toNat) dw0)
              ((dedup_waypoints d o.waypoints).getD
                (((i : ℤ) %
                  ((dedup_waypoints d o.waypoints).length : ℤ)).toNat) dw0) /
            knots_to_feet_per_second o.speed_avg)).length from by
      rw [hlen0]
      omega]
    rw [List.take_length]
    simp only [List.sum_cons, zero_add]
    -- positivity of the sum: entry at i = 1 is positive, all are non-negative
    obtain ⟨a, b, rest, hdd⟩ : ∃ a b rest,
        dedup_waypoints d o.waypoints = a :: b :: rest := by
      rcases hcase : dedup_waypoints d o.waypoints with _ | ⟨a, _ | ⟨b, rest⟩⟩
      · rw [hcase] at h2; simp at h2
      · rw [hcase] at h2; simp at h2
      · exact ⟨a, b, rest, rfl⟩
    have hchain := dedup_chain d hz o.waypoints
    rw [hdd] at hchain
    have hab : a ≠ b := (List.chain'_cons.mp hchain).1
    have hg1 : (fun i : ℕ =>
        distance_to d
          ((dedup_waypoints d o.waypoints).getD
            ((((i : ℤ) - 1) %
              ((dedup_waypoints d o.waypoints).length : ℤ)).toNat) dw0)
          ((dedup_waypoints d o.waypoints).getD
            (((i : ℤ) %
              ((dedup_waypoints d o.waypoints).length : ℤ)).toNat) dw0) /
        knots_to_feet_per_second o.speed_avg) 1 =
        distance_to d a b / knots_to_feet_per_second o.speed_avg := by
      have e1 : (((1 : ℕ) : ℤ) - 1) %
          ((dedup_waypoints d o.waypoints).length : ℤ) = 0 := by
        norm_num
      have e2 : ((1 : ℕ) : ℤ) %
          ((dedup_waypoints d o.waypoints).length : ℤ) = 1 := by
        rw [Int.emod_eq_of_lt (by omega) (by omega)]
        norm_num
      simp only [e1, e2]
      rw [hdd]
      rfl
    have hmem : (fun i : ℕ =>
        distance_to d
          ((dedup_waypoints d o.waypoints).getD
            ((((i : ℤ) - 1) %
              ((dedup_waypoints d o.waypoints).length : ℤ)).toNat) dw0)
          ((dedup_waypoints d o.waypoints).getD
            (((i : ℤ) %
              ((dedup_waypoints d o.waypoints).length : ℤ)).toNat) dw0) /
        knots_to_feet_per_second o.speed_avg) 1 ∈
        ((List.range (dedup_waypoints d o.waypoints).length).map (· + 1)).map
          (fun i : ℕ =>
            distance_to d
              ((dedup_waypoints d o.waypoints).getD
                ((((i : ℤ) - 1) %
                  ((dedup_waypoints d o.waypoints).length : ℤ)).toNat) dw0)
              ((dedup_waypoints d o.waypoints).getD
                (((i : ℤ) %
                  ((dedup_waypoints d o.waypoints).length : ℤ)).toNat) dw0) /
            knots_to_feet_per_second o.speed_avg) := by
      refine List.mem_map.mpr ⟨1, ?_, rfl⟩
      refine List.mem_map.mpr ⟨0, ?_, rfl⟩
      exact List.mem_range.mpr (by omega)
    have hposval : 0 < distance_to d a b / knots_to_feet_per_second o.speed_avg := by
      have hne : distance_to d a b ≠ 0 :=
        fun hc => hab ((distance_to_zero_iff d hz a b).mp hc)
      have hge : 0 ≤ distance_to d a b := hnn _ _
      exact div_pos (lt_of_le_of_ne hge (Ne.symm hne)) hkfps
    have hallnn : ∀ x ∈ ((List.range
        (dedup_waypoints d o.waypoints).length).map (· + 1)).map
          (fun i : ℕ =>
            distance_to d
              ((dedup_waypoints d o.waypoints).getD
                ((((i : ℤ) - 1) %
                  ((dedup_waypoints d o.waypoints).length : ℤ)).toNat) dw0)
              ((dedup_waypoints d o.waypoints).getD
                (((i : ℤ) %
                  ((dedup_waypoints d o.waypoints).length : ℤ)).toNat) dw0) /
            knots_to_feet_per_second o.speed_avg), 0 ≤ x := by
      intro x hx
      obtain ⟨i, _, rfl⟩ := List.mem_map.mp hx
      exact div_nonneg (hnn _ _) hkfps.le
    have hsum := List.single_le_sum hallnn _ hmem
    rw [hg1] at hsum
    linarith
  have hTne : sc.1 ≠ 0 := ne_of_gt hTpos
  have h0 : ¬ (dedup_waypoints d o.waypoints).length = 0 := by omega
  have h1 : ¬ ((dedup_waypoints d o.waypoints).length = 1 ∨
      o.speed_avg ≤ 0) := by
    rintro (h | h)
    · omega
    · linarith
  have hres : ∀ u : ℚ, get_position_result d sev o u =
      (sev (sc.2.getD 0 tck0) (qmod (u - epoch_time) sc.1),
       sev (sc.2.getD 1 tck0) (qmod (u - epoch_time) sc.1),
       sev (sc.2.getD 2 tck0) (qmod (u - epoch_time) sc.1)) := by
    intro u
    simp only [get_position_result]
    rw [if_neg h0, if_neg h1, hsceq]
  refine ⟨?_, ?_, ?_, ?_⟩
  · rw [hTP]
    exact hTpos
  · obtain ⟨sA, eA, _, _⟩ := get_position_spec d sev (mkState o)
      (t + k * circuit_total_period d o) ⟨Or.inl rfl, Or.inl rfl⟩
    obtain ⟨sB, eB, _, _⟩ := get_position_spec d sev (mkState o) t
      ⟨Or.inl rfl, Or.inl rfl⟩
    rw [eA, eB]
    simp only [Option.map_some']
    have hArg : t + (k : ℚ) * circuit_total_period d o - epoch_time =
        (t - epoch_time) + (k : ℚ) * sc.1 := by
      rw [hTP]
      ring
    have hA := hres (t + k * circuit_total_period d o)
    rw [hArg, qmod_add_int_mul (t - epoch_time) sc.1 hTne k] at hA
    rw [show (mkState o).obst = o from rfl, hA, hres t]
  · rw [hTP]
    exact (qmod_nonneg_lt _ _ hTpos).1
  · rw [hTP]
    exact (qmod_nonneg_lt _ _ hTpos).2

/-- Witness for C3 at the concrete two-waypoint obstacle, timestamp 5 and
k = 3 periods. -/
theorem claim_C3_witness :
    DistNonneg dTaxi ∧ DistZeroIffEq dTaxi ∧
    2 ≤ (dedup_waypoints dTaxi exObst.waypoints).length ∧
    0 < exObst.speed_avg ∧
    (0 < circuit_total_period dTaxi exObst ∧
     (get_position dTaxi sevEx (mkState exObst)
        (5 + ((3 : ℤ) : ℚ) * circuit_total_period dTaxi exObst)).map Prod.fst =
       (get_position dTaxi sevEx (mkState exObst) 5).map Prod.fst ∧
     0 ≤ qmod (5 - epoch_time) (circuit_total_period dTaxi exObst) ∧
     qmod (5 - epoch_time) (circuit_total_period dTaxi exObst) <
       circuit_total_period dTaxi exObst) :=
  have h2 : 2 ≤ (dedup_waypoints dTaxi exObst.waypoints).length := by
    have hdd : dedup_waypoints dTaxi exObst.waypoints = [exW1, exW2] := by
      norm_num +decide [dedup_waypoints, dedupAux, distance_to, dTaxi,
        Waypoint.pos3, exW1, exW2, exObst]
    rw [hdd]
    decide
  ⟨dTaxi_nonneg, dTaxi_zero_iff, h2, by decide,
   claim_C3 dTaxi sevEx exObst dTaxi_nonneg dTaxi_zero_iff h2 (by decide) 5 3⟩

end MovingObstacleSpec
